import Mathlib

/-!
Verification of the `rouilledb` in-memory storage backend.

This file shallowly embeds `src/fs/file.rs` (the `FileError` taxonomy and the
`File` trait) and `src/fs/memory_file.rs` (the `MemoryFile` implementation)
into Lean, and proves the specification's testable properties about it.

Modelling conventions:
- Rust `usize` values are modelled as `Nat` (offsets and lengths in this code
  are only ever added and compared; no wrapping arithmetic is performed).
- Bytes (`u8`) are modelled as `Nat`; the code only copies bytes around and
  fills gaps with `0`, so no byte arithmetic occurs.
- A Rust method taking `&mut self` and returning `Result<T, FileError>` is
  modelled as a function `MemoryFile → Except FileError T × MemoryFile`,
  returning the result together with the post-state; an early `return Err(..)`
  leaves the state untouched, hence returns the pre-state.  Methods taking
  `self` by value (`read`, `sync`, `size`) never mutate the struct, and are
  modelled the same way with the unchanged state passed through; `read`
  additionally threads the caller's buffer (a `List Nat` of fixed length)
  since `copy_from_slice` overwrites it wholesale on the success path.
-/

deriving instance DecidableEq for Except

/-- Embeds `FileError` from `src/fs/file.rs`. -/
inductive FileError where
  | FileAlreadyExists (path : String)
  | FileNotOpened (path : String)
  | FileOpened (path : String)
  | EndOfFileRead (filename : String) (file_size : Nat) (offset : Nat) (read_size : Nat)
deriving DecidableEq, Repr

/-- Embeds the struct `MemoryFile` from `src/fs/memory_file.rs`:
an `is_opened` flag and a growable byte buffer `data`. -/
structure MemoryFile where
  is_opened : Bool
  data : List Nat
deriving DecidableEq, Repr

/-- `MemoryFile::new()`: closed, empty content. -/
def MemoryFile.new : MemoryFile :=
  { is_opened := false, data := [] }

/-- `MemoryFile::new_with_data(data)`: closed, seeded content. -/
def MemoryFile.new_with_data (d : List Nat) : MemoryFile :=
  { is_opened := false, data := d }

/-- `MemoryFile::create`: fails with `FileOpened` if already opened,
otherwise sets `is_opened` and succeeds. -/
def MemoryFile.create (f : MemoryFile) : Except FileError Unit × MemoryFile :=
  if f.is_opened then
    (Except.error (FileError.FileOpened "MemoryFile"), f)
  else
    (Except.ok (), { f with is_opened := true })

/-- `MemoryFile::close`: fails with `FileNotOpened` if not opened,
otherwise clears `is_opened` and succeeds. -/
def MemoryFile.close (f : MemoryFile) : Except FileError Unit × MemoryFile :=
  if !f.is_opened then
    (Except.error (FileError.FileNotOpened "MemoryFile"), f)
  else
    (Except.ok (), { f with is_opened := false })

/-- `MemoryFile::open`: fails with `FileOpened` if already opened,
otherwise sets `is_opened` and succeeds. -/
def MemoryFile.«open» (f : MemoryFile) : Except FileError Unit × MemoryFile :=
  if f.is_opened then
    (Except.error (FileError.FileOpened "MemoryFile"), f)
  else
    (Except.ok (), { f with is_opened := true })

/-- `MemoryFile::delete`: fails with `FileOpened` if opened; otherwise does
nothing and succeeds (the content is not cleared). -/
def MemoryFile.delete (f : MemoryFile) : Except FileError Unit × MemoryFile :=
  if f.is_opened then
    (Except.error (FileError.FileOpened "MemoryFile"), f)
  else
    (Except.ok (), f)

/-- The buffer produced by `MemoryFile::write`'s body: `resize` pads `l` with
zeros up to `offset + data.len()` when it is shorter, then `copy_from_slice`
overwrites the range `[offset, offset + data.len())` with `d`. -/
def MemoryFile.writeData (l : List Nat) (offset : Nat) (d : List Nat) : List Nat :=
  let end_offset := offset + d.length
  let resized := if l.length < end_offset then l ++ List.replicate (end_offset - l.length) 0 else l
  resized.take offset ++ d ++ resized.drop end_offset

/-- `MemoryFile::write(offset, data)`: fails with `FileNotOpened` if not
opened; otherwise grows the buffer (zero-filled) to `offset + data.len()` if
needed and overwrites that range. -/
def MemoryFile.write (f : MemoryFile) (offset : Nat) (d : List Nat) :
    Except FileError Unit × MemoryFile :=
  if !f.is_opened then
    (Except.error (FileError.FileNotOpened "MemoryFile"), f)
  else
    (Except.ok (), { f with data := MemoryFile.writeData f.data offset d })

/-- `MemoryFile::read(offset, buffer)`: fails with `FileNotOpened` if not
opened; fails with `EndOfFileRead` (carrying the file size, the offset and the
buffer length) when `offset + buffer.len()` exceeds the content length, leaving
the buffer untouched; otherwise fills the whole buffer from the content range
`[offset, offset + buffer.len())`.  Returns (result, file, buffer). -/
def MemoryFile.read (f : MemoryFile) (offset : Nat) (buffer : List Nat) :
    Except FileError Unit × MemoryFile × List Nat :=
  if !f.is_opened then
    (Except.error (FileError.FileNotOpened "MemoryFile"), f, buffer)
  else
    let end_offset := offset + buffer.length
    if f.data.length < end_offset then
      (Except.error (FileError.EndOfFileRead "MemoryFile" f.data.length offset buffer.length),
        f, buffer)
    else
      (Except.ok (), f, (f.data.drop offset).take buffer.length)

/-- `MemoryFile::sync`: unconditionally succeeds and performs no mutation. -/
def MemoryFile.sync (f : MemoryFile) : Except FileError Unit × MemoryFile :=
  (Except.ok (), f)

/-- `MemoryFile::size`: fails with `FileNotOpened` if not opened, otherwise
returns the length of the content buffer. -/
def MemoryFile.size (f : MemoryFile) : Except FileError Nat × MemoryFile :=
  if !f.is_opened then
    (Except.error (FileError.FileNotOpened "MemoryFile"), f)
  else
    (Except.ok f.data.length, f)

/-- Driver for sequences of `write` calls: applies each `(offset, data)` pair
in turn, stopping at the first error. -/
def MemoryFile.writeAll (f : MemoryFile) (ws : List (Nat × List Nat)) :
    Except FileError Unit × MemoryFile :=
  match ws with
  | [] => (Except.ok (), f)
  | (o, d) :: rest =>
    match f.write o d with
    | (Except.ok _, f2) => f2.writeAll rest
    | (Except.error e, f2) => (Except.error e, f2)

/-- Recognises the `FileAlreadyExists` variant of a result, used to state that
the in-memory backend never signals it. -/
def resultIsAlreadyExists {α : Type} (r : Except FileError α) : Bool :=
  match r with
  | Except.error (FileError.FileAlreadyExists _) => true
  | _ => false

example : (MemoryFile.new.create).1 = Except.ok () := by decide
example : ((MemoryFile.new.create).2.write 2 [7, 8]).2.data = [0, 0, 7, 8] := by decide
example : (((MemoryFile.new.create).2.write 2 [7, 8]).2.read 2 [0, 0]).2.2 = [7, 8] := by decide

/-- The buffer after a write has length `max (old length) (offset + data length)`. -/
theorem MemoryFile.writeData_length (l : List Nat) (o : Nat) (d : List Nat) :
    (MemoryFile.writeData l o d).length = max l.length (o + d.length) := by
  unfold MemoryFile.writeData
  by_cases hr : l.length < o + d.length
  · simp only [if_pos hr, List.length_append, List.length_take, List.length_drop,
      List.length_replicate]
    omega
  · simp only [if_neg hr, List.length_append, List.length_take, List.length_drop]
    omega

/-- Writing `d` at offset `o` into an empty buffer produces `o` zero bytes
followed by `d`. -/
theorem MemoryFile.writeData_nil (o : Nat) (d : List Nat) :
    MemoryFile.writeData [] o d = List.replicate o 0 ++ d := by
  unfold MemoryFile.writeData
  by_cases h : 0 < o + d.length
  · have hmin : min o (o + d.length) = o := Nat.min_eq_left (Nat.le_add_right _ _)
    simp [h, List.take_replicate, List.drop_replicate, hmin]
  · have ho : o = 0 := by omega
    have hd : d = [] := List.length_eq_zero.mp (by omega)
    subst ho; subst hd; simp

/-- Pointwise description of the buffer after a write: positions before the
offset keep their old byte (or a zero-fill byte if the old buffer was shorter),
the written range holds the new data, and positions past the written range
keep their old byte. -/
theorem MemoryFile.writeData_getElem? (l : List Nat) (o : Nat) (d : List Nat) (p : Nat) :
    (MemoryFile.writeData l o d)[p]? =
      if p < o then (if p < l.length then l[p]? else some 0)
      else if p < o + d.length then d[p - o]?
      else l[p]? := by
  unfold MemoryFile.writeData
  by_cases hr : l.length < o + d.length
  · simp only [if_pos hr]
    have hplen : (l ++ List.replicate (o + d.length - l.length) 0).length = o + d.length := by
      simp; omega
    have hpget : ∀ q : Nat, (l ++ List.replicate (o + d.length - l.length) 0)[q]?
        = if q < l.length then l[q]?
          else if q < o + d.length then some 0 else none := by
      intro q
      by_cases h1 : q < l.length
      · rw [List.getElem?_append_left h1]; simp [h1]
      · rw [List.getElem?_append_right (Nat.le_of_not_lt h1)]
        by_cases h2 : q < o + d.length
        · have h3 : q - l.length < o + d.length - l.length := by omega
          simp [h1, h2, List.getElem?_replicate, h3]
        · have h3 : ¬ (q - l.length < o + d.length - l.length) := by omega
          simp [h1, h2, List.getElem?_replicate, h3]
    have hAlen : ((l ++ List.replicate (o + d.length - l.length) 0).take o).length = o := by
      rw [List.length_take, hplen]; omega
    have hABlen :
        ((l ++ List.replicate (o + d.length - l.length) 0).take o ++ d).length
          = o + d.length := by
      rw [List.length_append, hAlen]
    by_cases h1 : p < o
    · rw [List.getElem?_append_left (by rw [hABlen]; omega),
        List.getElem?_append_left (by rw [hAlen]; exact h1),
        List.getElem?_take_of_lt h1, hpget p]
      have h2 : p < o + d.length := by omega
      by_cases h3 : p < l.length <;> simp [h1, h2, h3]
    · by_cases h2 : p < o + d.length
      · rw [List.getElem?_append_left (by rw [hABlen]; omega),
          List.getElem?_append_right (by rw [hAlen]; omega), hAlen]
        simp [h1, h2]
      · rw [List.getElem?_append_right (by rw [hABlen]; omega), hABlen,
          List.getElem?_drop]
        have harith : o + d.length + (p - (o + d.length)) = p := by omega
        rw [harith, hpget p]
        have h3 : ¬ (p < l.length) := by omega
        have h4 : l[p]? = none := List.getElem?_eq_none (by omega)
        simp [h1, h2, h3, h4]
  · simp only [if_neg hr]
    have hAlen : (l.take o).length = o := by rw [List.length_take]; omega
    have hABlen : (l.take o ++ d).length = o + d.length := by
      rw [List.length_append, hAlen]
    by_cases h1 : p < o
    · rw [List.getElem?_append_left (by rw [hABlen]; omega),
        List.getElem?_append_left (by rw [hAlen]; exact h1),
        List.getElem?_take_of_lt h1]
      have h3 : p < l.length := by omega
      simp [h1, h3]
    · by_cases h2 : p < o + d.length
      · rw [List.getElem?_append_left (by rw [hABlen]; omega),
          List.getElem?_append_right (by rw [hAlen]; omega), hAlen]
        simp [h1, h2]
      · rw [List.getElem?_append_right (by rw [hABlen]; omega), hABlen,
          List.getElem?_drop]
        have harith : o + d.length + (p - (o + d.length)) = p := by omega
        rw [harith]
        simp [h1, h2]

/-- C1: write-then-read round trip — starting from a newly created (empty,
open) `MemoryFile`, `write O B` succeeds, and a subsequent `read` at `O` with
a buffer of length `B.length` succeeds and fills the buffer with exactly `B`. -/
theorem C1_write_then_read_roundtrip (B : List Nat) (O : Nat) (buf : List Nat)
    (h : buf.length = B.length) :
    (MemoryFile.new.create).1 = Except.ok () ∧
    (((MemoryFile.new.create).2).write O B).1 = Except.ok () ∧
    ((((MemoryFile.new.create).2).write O B).2.read O buf).1 = Except.ok () ∧
    ((((MemoryFile.new.create).2).write O B).2.read O buf).2.2 = B := by
  have hcreate : (MemoryFile.new.create).2 = MemoryFile.mk true [] := rfl
  have hw : (MemoryFile.mk true []).write O B
      = (Except.ok (), MemoryFile.mk true (List.replicate O 0 ++ B)) := by
    simp [MemoryFile.write, MemoryFile.writeData_nil]
  have hdrop : (List.replicate O 0 ++ B).drop O = B := List.drop_left' (by simp)
  have hread : (MemoryFile.mk true (List.replicate O 0 ++ B)).read O buf
      = (Except.ok (), MemoryFile.mk true (List.replicate O 0 ++ B), B) := by
    simp [MemoryFile.read, h, hdrop]
  rw [hcreate, hw]
  exact ⟨rfl, rfl, by rw [hread], by rw [hread]⟩

/-- C1 witness: the round trip evaluated at `B = [7, 8]`, `O = 3`. -/
theorem C1_write_then_read_roundtrip_witness :
    ([0, 0] : List Nat).length = ([7, 8] : List Nat).length ∧
    ((MemoryFile.new.create).1 = Except.ok () ∧
     (((MemoryFile.new.create).2).write 3 [7, 8]).1 = Except.ok () ∧
     ((((MemoryFile.new.create).2).write 3 [7, 8]).2.read 3 [0, 0]).1 = Except.ok () ∧
     ((((MemoryFile.new.create).2).write 3 [7, 8]).2.read 3 [0, 0]).2.2 = [7, 8]) :=
  ⟨by decide, C1_write_then_read_roundtrip [7, 8] 3 [0, 0] (by decide)⟩

/-- C3: short-read rejection — on an open file of size `l.length`, a read
whose requested range `[o, o + buf.length)` extends past the end fails with
`EndOfFileRead` carrying exactly the file size, the requested offset and the
requested read size, and leaves the file and the caller's buffer untouched. -/
theorem C3_short_read_rejection (l buf : List Nat) (o : Nat)
    (h : o + buf.length > l.length) :
    (MemoryFile.mk true l).read o buf
      = (Except.error (FileError.EndOfFileRead "MemoryFile" l.length o buf.length),
          MemoryFile.mk true l, buf) := by
  simp [MemoryFile.read, h]

/-- C3 witness: reading 2 bytes at offset 5 from an open 1-byte file. -/
theorem C3_short_read_rejection_witness :
    (5 : Nat) + ([0, 0] : List Nat).length > ([9] : List Nat).length ∧
    (MemoryFile.mk true [9]).read 5 [0, 0]
      = (Except.error (FileError.EndOfFileRead "MemoryFile" 1 5 2),
          MemoryFile.mk true [9], [0, 0]) :=
  ⟨by decide, C3_short_read_rejection [9] [0, 0] 5 (by decide)⟩

/-- C4: growth zero-fill — writing `B` at offset `O` on a newly created empty
file succeeds, and reading the range `[0, O)` afterwards succeeds and yields
`O` zero bytes. -/
theorem C4_growth_zero_fill (B : List Nat) (O : Nat) (buf : List Nat)
    (h : buf.length = O) :
    (((MemoryFile.new.create).2).write O B).1 = Except.ok () ∧
    ((((MemoryFile.new.create).2).write O B).2.read 0 buf).1 = Except.ok () ∧
    ((((MemoryFile.new.create).2).write O B).2.read 0 buf).2.2 = List.replicate O 0 := by
  have hcreate : (MemoryFile.new.create).2 = MemoryFile.mk true [] := rfl
  have hw : (MemoryFile.mk true []).write O B
      = (Except.ok (), MemoryFile.mk true (List.replicate O 0 ++ B)) := by
    simp [MemoryFile.write, MemoryFile.writeData_nil]
  have htake : (List.replicate O 0 ++ B).take O = List.replicate O 0 :=
    List.take_left' (by simp)
  have hc : ¬ ((List.replicate O 0 ++ B).length < 0 + buf.length) := by
    simp only [List.length_append, List.length_replicate, h, Nat.zero_add]
    omega
  have hread : (MemoryFile.mk true (List.replicate O 0 ++ B)).read 0 buf
      = (Except.ok (), MemoryFile.mk true (List.replicate O 0 ++ B),
          List.replicate O 0) := by
    simp [MemoryFile.read, hc, h, htake]
  rw [hcreate, hw]
  exact ⟨rfl, by rw [hread], by rw [hread]⟩

/-- C4 witness: writing `[7]` at offset 2 on an empty file, then reading the
first two bytes, yields `[0, 0]`. -/
theorem C4_growth_zero_fill_witness :
    ([5, 5] : List Nat).length = 2 ∧
    ((((MemoryFile.new.create).2).write 2 [7]).1 = Except.ok () ∧
     (((((MemoryFile.new.create).2).write 2 [7]).2).read 0 [5, 5]).1 = Except.ok () ∧
     (((((MemoryFile.new.create).2).write 2 [7]).2).read 0 [5, 5]).2.2 = List.replicate 2 0) :=
  ⟨by decide, C4_growth_zero_fill [7] 2 [5, 5] (by decide)⟩

/-- C7: seeded reads return the exact stored slice — a file constructed with
content `D`, once opened, serves any in-bounds read `[o, o + buf.length)`
successfully with exactly the bytes `D[o .. o + buf.length)`. -/
theorem C7_seeded_read (D : List Nat) (o : Nat) (buf : List Nat)
    (h : o + buf.length ≤ D.length) :
    (MemoryFile.«open» (MemoryFile.new_with_data D)).1 = Except.ok () ∧
    (((MemoryFile.«open» (MemoryFile.new_with_data D)).2).read o buf).1 = Except.ok () ∧
    (((MemoryFile.«open» (MemoryFile.new_with_data D)).2).read o buf).2.2
      = (D.drop o).take buf.length := by
  have hopen : (MemoryFile.«open» (MemoryFile.new_with_data D)).2
      = MemoryFile.mk true D := rfl
  have hc : ¬ (D.length < o + buf.length) := Nat.not_lt.mpr h
  rw [hopen]
  refine ⟨rfl, ?_, ?_⟩ <;> simp [MemoryFile.read, hc]

/-- C7 witness: seeding `[1, 2, 3]`, opening, and reading 2 bytes at offset 1
yields `[2, 3]`. -/
theorem C7_seeded_read_witness :
    (1 : Nat) + ([0, 0] : List Nat).length ≤ ([1, 2, 3] : List Nat).length ∧
    ((MemoryFile.«open» (MemoryFile.new_with_data [1, 2, 3])).1 = Except.ok () ∧
     (((MemoryFile.«open» (MemoryFile.new_with_data [1, 2, 3])).2).read 1 [0, 0]).1
        = Except.ok () ∧
     (((MemoryFile.«open» (MemoryFile.new_with_data [1, 2, 3])).2).read 1 [0, 0]).2.2
        = (([1, 2, 3] : List Nat).drop 1).take ([0, 0] : List Nat).length) :=
  ⟨by decide, C7_seeded_read [1, 2, 3] 1 [0, 0] (by decide)⟩

/-- C8: write modifies only its target range — on an open file with content
`l`, `write o d` succeeds; every prior position outside `[o, o + d.length)`
keeps its previous byte, and the target range holds exactly `d`. -/
theorem C8_write_frame (l : List Nat) (o : Nat) (d : List Nat) :
    ((MemoryFile.mk true l).write o d).1 = Except.ok () ∧
    (∀ p : Nat, p < l.length → p < o →
      (((MemoryFile.mk true l).write o d).2).data[p]? = l[p]?) ∧
    (∀ p : Nat, p < l.length → o + d.length ≤ p →
      (((MemoryFile.mk true l).write o d).2).data[p]? = l[p]?) ∧
    (∀ p : Nat, o ≤ p → p < o + d.length →
      (((MemoryFile.mk true l).write o d).2).data[p]? = d[p - o]?) := by
  have hw : ((MemoryFile.mk true l).write o d).2
      = MemoryFile.mk true (MemoryFile.writeData l o d) := rfl
  rw [hw]
  refine ⟨rfl, ?_, ?_, ?_⟩
  · intro p h1 h2
    rw [MemoryFile.writeData_getElem?]
    simp [h1, h2]
  · intro p h1 h2
    rw [MemoryFile.writeData_getElem?]
    have h3 : ¬ (p < o) := by omega
    have h4 : ¬ (p < o + d.length) := by omega
    simp [h3, h4]
  · intro p h1 h2
    rw [MemoryFile.writeData_getElem?]
    have h3 : ¬ (p < o) := by omega
    simp [h3, h2]

/-- C8 witness: writing `[5]` at offset 1 on content `[9, 9, 9, 9]` keeps
positions 0 and 3 and overwrites position 1. -/
theorem C8_write_frame_witness :
    ((MemoryFile.mk true [9, 9, 9, 9]).write 1 [5]).1 = Except.ok () ∧
    (((MemoryFile.mk true [9, 9, 9, 9]).write 1 [5]).2).data[0]?
      = ([9, 9, 9, 9] : List Nat)[0]? ∧
    (((MemoryFile.mk true [9, 9, 9, 9]).write 1 [5]).2).data[3]?
      = ([9, 9, 9, 9] : List Nat)[3]? ∧
    (((MemoryFile.mk true [9, 9, 9, 9]).write 1 [5]).2).data[1]?
      = ([5] : List Nat)[1 - 1]? := by
  obtain ⟨h1, h2, h3, h4⟩ := C8_write_frame [9, 9, 9, 9] 1 [5]
  exact ⟨h1, h2 0 (by decide) (by decide), h3 3 (by decide) (by decide),
    h4 1 (by decide) (by decide)⟩

/-- C9: sync is a no-op that always succeeds — for every state (open or
closed, any content) `sync` returns success and leaves both the open flag and
the byte buffer unchanged. -/
theorem C9_sync_noop (b : Bool) (l : List Nat) :
    (MemoryFile.mk b l).sync = (Except.ok (), MemoryFile.mk b l) := rfl

/-- C2: lifecycle exclusivity — `create`/`open` on an open file fail with
`FileOpened`; `close` on a closed file fails with `FileNotOpened`; `delete`
on an open file fails with `FileOpened`; `write`/`read`/`size` on a closed
file fail with `FileNotOpened`; `create` and `open` on a closed file (any
content, including a never-created one) always succeed; and no operation in
any state ever returns `FileAlreadyExists`.  Error paths leave the state
unchanged. -/
theorem C2_lifecycle_exclusivity (b : Bool) (l : List Nat) (o : Nat) (d buf : List Nat) :
    (MemoryFile.mk true l).create
      = (Except.error (FileError.FileOpened "MemoryFile"), MemoryFile.mk true l) ∧
    MemoryFile.«open» (MemoryFile.mk true l)
      = (Except.error (FileError.FileOpened "MemoryFile"), MemoryFile.mk true l) ∧
    (MemoryFile.mk true l).delete
      = (Except.error (FileError.FileOpened "MemoryFile"), MemoryFile.mk true l) ∧
    (MemoryFile.mk false l).close
      = (Except.error (FileError.FileNotOpened "MemoryFile"), MemoryFile.mk false l) ∧
    (MemoryFile.mk false l).write o d
      = (Except.error (FileError.FileNotOpened "MemoryFile"), MemoryFile.mk false l) ∧
    (MemoryFile.mk false l).read o buf
      = (Except.error (FileError.FileNotOpened "MemoryFile"), MemoryFile.mk false l, buf) ∧
    (MemoryFile.mk false l).size
      = (Except.error (FileError.FileNotOpened "MemoryFile"), MemoryFile.mk false l) ∧
    (MemoryFile.mk false l).create = (Except.ok (), MemoryFile.mk true l) ∧
    MemoryFile.«open» (MemoryFile.mk false l) = (Except.ok (), MemoryFile.mk true l) ∧
    resultIsAlreadyExists ((MemoryFile.mk b l).create).1 = false ∧
    resultIsAlreadyExists ((MemoryFile.mk b l).close).1 = false ∧
    resultIsAlreadyExists (MemoryFile.«open» (MemoryFile.mk b l)).1 = false ∧
    resultIsAlreadyExists ((MemoryFile.mk b l).delete).1 = false ∧
    resultIsAlreadyExists ((MemoryFile.mk b l).write o d).1 = false ∧
    resultIsAlreadyExists ((MemoryFile.mk b l).read o buf).1 = false ∧
    resultIsAlreadyExists ((MemoryFile.mk b l).sync).1 = false ∧
    resultIsAlreadyExists ((MemoryFile.mk b l).size).1 = false := by
  refine ⟨rfl, rfl, rfl, rfl, rfl, rfl, rfl, rfl, rfl,
    ?_, ?_, ?_, ?_, ?_, ?_, ?_, ?_⟩ <;> cases b <;>
    first
      | rfl
      | (simp only [MemoryFile.read]
         split <;> (try split) <;> rfl)

/-- `writeAll` on an open file succeeds, stays open, and the final content
length is the running maximum of `offset + data.length` over the sequence,
folded from the starting length. -/
theorem MemoryFile.writeAll_ok (ws : List (Nat × List Nat)) (l : List Nat) :
    ∃ l2 : List Nat,
      (MemoryFile.mk true l).writeAll ws = (Except.ok (), MemoryFile.mk true l2) ∧
      l2.length = ws.foldl (fun a p => max a (p.1 + p.2.length)) l.length := by
  induction ws generalizing l with
  | nil => exact ⟨l, rfl, rfl⟩
  | cons hd tl ih =>
    obtain ⟨o, d⟩ := hd
    obtain ⟨l2, h1, h2⟩ := ih (MemoryFile.writeData l o d)
    refine ⟨l2, ?_, ?_⟩
    · simpa [MemoryFile.writeAll, MemoryFile.write] using h1
    · rw [h2, MemoryFile.writeData_length, List.foldl_cons]

/-- Folding the running maximum never goes below its starting value. -/
theorem foldl_max_ge_start (ws : List (Nat × List Nat)) (a0 : Nat) :
    a0 ≤ ws.foldl (fun a p => max a (p.1 + p.2.length)) a0 := by
  induction ws generalizing a0 with
  | nil => exact Nat.le_refl _
  | cons hd tl ih =>
    rw [List.foldl_cons]
    exact Nat.le_trans (Nat.le_max_left _ _) (ih _)

/-- C5: size consistency — every write in a sequence applied to a newly
created (empty, open) file succeeds; the resulting content length equals the
maximum of `offset + data.length` over the sequence (folded from 0, so the
buffer length always equals the logical size); extending the sequence with
further writes never decreases that length; and `size` succeeds, returning
exactly the content length. -/
theorem C5_size_consistency (ws more : List (Nat × List Nat)) :
    (((MemoryFile.new.create).2).writeAll ws).1 = Except.ok () ∧
    ((((MemoryFile.new.create).2).writeAll ws).2).data.length
      = ws.foldl (fun a p => max a (p.1 + p.2.length)) 0 ∧
    ((((MemoryFile.new.create).2).writeAll ws).2).data.length
      ≤ ((((MemoryFile.new.create).2).writeAll (ws ++ more)).2).data.length ∧
    ((((MemoryFile.new.create).2).writeAll ws).2).size
      = (Except.ok ((((MemoryFile.new.create).2).writeAll ws).2).data.length,
          (((MemoryFile.new.create).2).writeAll ws).2) := by
  have hc : (MemoryFile.new.create).2 = MemoryFile.mk true [] := rfl
  obtain ⟨l2, h1, h2⟩ := MemoryFile.writeAll_ok ws []
  obtain ⟨l3, h3, h4⟩ := MemoryFile.writeAll_ok (ws ++ more) []
  rw [hc, h1, h3]
  refine ⟨rfl, ?_, ?_, rfl⟩
  · simpa using h2
  · show l2.length ≤ l3.length
    rw [h2, h4, List.foldl_append]
    exact foldl_max_ge_start more _

/-- C6 counterexample: on a closed file seeded with one byte, `delete`
succeeds and `create` succeeds, yet `size` afterwards returns 1, not 0 —
recreation does not start from empty content. -/
theorem C6_delete_counterexample :
    ¬ ((((((MemoryFile.new_with_data [1]).delete).2).create).2).size).1
        = Except.ok 0 := by
  decide

/-- C6 (amended): for every closed seeded file, `delete` succeeds but leaves
the content intact; a subsequent `create` opens the unit with its prior
content, and `size` then returns the prior length rather than 0. -/
theorem C6_delete_preserves_content (l : List Nat) :
    (MemoryFile.new_with_data l).delete = (Except.ok (), MemoryFile.new_with_data l) ∧
    (((MemoryFile.new_with_data l).delete).2).create
      = (Except.ok (), MemoryFile.mk true l) ∧
    ((MemoryFile.mk true l).size).1 = Except.ok l.length :=
  ⟨rfl, rfl, rfl⟩

/-- C10: atomicity on error — for every starting state and arguments, each
operation either succeeds or leaves everything as it was: `create`, `close`,
`open`, `delete` and `write` return the pre-state on every error; `read`
never changes the file and leaves the caller's buffer untouched unless it
succeeds; `sync` always succeeds without change; `size` never changes the
file. -/
theorem C10_atomicity_on_error (b : Bool) (l : List Nat) (o : Nat) (d buf : List Nat) :
    (((MemoryFile.mk b l).create).1 = Except.ok () ∨
      ((MemoryFile.mk b l).create).2 = MemoryFile.mk b l) ∧
    (((MemoryFile.mk b l).close).1 = Except.ok () ∨
      ((MemoryFile.mk b l).close).2 = MemoryFile.mk b l) ∧
    ((MemoryFile.«open» (MemoryFile.mk b l)).1 = Except.ok () ∨
      (MemoryFile.«open» (MemoryFile.mk b l)).2 = MemoryFile.mk b l) ∧
    (((MemoryFile.mk b l).delete).1 = Except.ok () ∨
      ((MemoryFile.mk b l).delete).2 = MemoryFile.mk b l) ∧
    (((MemoryFile.mk b l).write o d).1 = Except.ok () ∨
      ((MemoryFile.mk b l).write o d).2 = MemoryFile.mk b l) ∧
    ((MemoryFile.mk b l).read o buf).2.1 = MemoryFile.mk b l ∧
    (((MemoryFile.mk b l).read o buf).1 = Except.ok () ∨
      ((MemoryFile.mk b l).read o buf).2.2 = buf) ∧
    (MemoryFile.mk b l).sync = (Except.ok (), MemoryFile.mk b l) ∧
    ((MemoryFile.mk b l).size).2 = MemoryFile.mk b l := by
  cases b <;>
    refine ⟨?_, ?_, ?_, ?_, ?_, ?_, ?_, rfl, rfl⟩ <;>
    first
      | exact Or.inl rfl
      | exact Or.inr rfl
      | rfl
      | (simp only [MemoryFile.read]
         split <;> (try split) <;>
           first
             | exact Or.inl rfl
             | exact Or.inr rfl
             | rfl)
